import Mathlib

/-!
# Verification of cleanupdockerhub.py

A shallow embedding of the retention-decision, repository-processing and
run-orchestration logic of `cleanupdockerhub.py`, with theorems settling the
specification's claims about it.

Conventions of the embedding:
* The module-level configuration constants (`KEEP_LAST_N`, `MIN_AGE_DAYS`,
  `EXCLUDE_TAGS`, `DRY_RUN`) become an explicit `Config` record passed to each
  function (the Python tests substitute these globals per call in the same way).
* Timestamps are modelled as epoch seconds (`Int`).  The Python code parses the
  ISO timestamp string with `datetime.fromisoformat` and then only ever uses the
  parsed instant; parsing of valid strings is a bijection onto instants, so a
  tag carries `lastUpdated : Option Int`, where `none` models an absent or empty
  `last_updated` string (Python: `if not last_updated_str`).
* `timedelta.days` in Python is floor division of the elapsed seconds by 86400
  (toward negative infinity), which is `Int.fdiv`.
* Network effects are modelled by explicit oracles: the outcome of one HTTP
  request is a value supplied to the function, and the calls a function makes
  are returned as an explicit trace.
-/

namespace CleanupDockerhub

/-- A Docker Hub tag record as used by the script: `tag.get("name", "")` and
`tag.get("last_updated", "")`.  `lastUpdated = none` models a missing or empty
`last_updated` field; `some t` a parseable timestamp at epoch-second `t`. -/
structure Tag where
  name : String
  lastUpdated : Option Int
  deriving Repr, DecidableEq

/-- The module configuration constants of `cleanupdockerhub.py` that the
retention logic reads (`KEEP_LAST_N`, `MIN_AGE_DAYS`, `EXCLUDE_TAGS`,
`DRY_RUN`), packaged as an explicit record. -/
structure Config where
  keepLastN : Int
  minAgeDays : Int
  excludeTags : List String
  dryRun : Bool
  deriving Repr, DecidableEq

/-- Age computation `(datetime.now(timezone.utc) - last_updated).days`:
elapsed seconds floor divided by 86400 (Python `timedelta.days` floors toward
negative infinity). -/
def ageDays (now t : Int) : Int :=
  Int.fdiv (now - t) 86400

/-- Embedding of `evaluate_tag(tag, rank)` (src/cleanupdockerhub.py:116-156).
Returns `(should_delete, reason)`.  `now` is the current UTC instant in epoch
seconds, `rank` the 0-based position in the newest-first sorted tag list. -/
def evaluate_tag (cfg : Config) (now : Int) (tag : Tag) (rank : Nat) :
    Bool × String :=
  let name := tag.name
  if name ∈ cfg.excludeTags then
    (false, "excluded tag '" ++ name ++ "'")
  else
    match tag.lastUpdated with
    | none => (false, "no last_updated timestamp — skipping to be safe")
    | some t =>
      let age_days := ageDays now t
      let beyond_keep := decide ((rank : Int) ≥ cfg.keepLastN)
      let old_enough := decide (age_days ≥ cfg.minAgeDays)
      if beyond_keep && old_enough then
        (true, "rank " ++ toString (rank + 1) ++ " (beyond keep=" ++
          toString cfg.keepLastN ++ "), age " ++ toString age_days ++
          "d (>= " ++ toString cfg.minAgeDays ++ "d)")
      else if !beyond_keep then
        (false, "rank " ++ toString (rank + 1) ++ " — within keep-last-" ++
          toString cfg.keepLastN ++ " window")
      else
        (false, "rank " ++ toString (rank + 1) ++ " beyond window but only " ++
          toString age_days ++ "d old (min " ++ toString cfg.minAgeDays ++ "d)")

/-- The per-repository statistics dict
`{"checked": ..., "deleted": 0, "kept": 0, "errors": 0}` of `process_repo`,
also the shape of the `totals` dict of `run_cleanup`. -/
structure RepoStats where
  checked : Nat
  deleted : Nat
  kept : Nat
  errors : Nat
  deriving Repr, DecidableEq

/-- Component-wise sum used by `run_cleanup`'s
`for key in totals: totals[key] += stats[key]`. -/
def RepoStats.add (a b : RepoStats) : RepoStats :=
  ⟨a.checked + b.checked, a.deleted + b.deleted, a.kept + b.kept,
    a.errors + b.errors⟩

/-- The `for rank, tag in enumerate(tags)` loop body of `process_repo`
(src/cleanupdockerhub.py:169-187), starting at rank `rank`.  `deleteOk name`
is the oracle for the outcome of `delete_tag(token, repo, name)` (whether the
DELETE request returned HTTP 204).  Returns the counters the loop accumulates
(`deleted`, `kept`, `errors`) together with the trace of tag names actually
passed to `delete_tag`, in call order. -/
def processLoop (cfg : Config) (now : Int) (deleteOk : String → Bool)
    (rank : Nat) : List Tag → (Nat × Nat × Nat) × List String
  | [] => ((0, 0, 0), [])
  | tag :: rest =>
    let decision := evaluate_tag cfg now tag rank
    let tail := processLoop cfg now deleteOk (rank + 1) rest
    let counters := tail.1
    let calls := tail.2
    if decision.1 then
      if cfg.dryRun then
        -- dry run: log intent, count as deleted, no delete_tag call
        ((counters.1 + 1, counters.2.1, counters.2.2), calls)
      else if deleteOk tag.name then
        ((counters.1 + 1, counters.2.1, counters.2.2), tag.name :: calls)
      else
        ((counters.1, counters.2.1, counters.2.2 + 1), tag.name :: calls)
    else
      ((counters.1, counters.2.1 + 1, counters.2.2), calls)

/-- Embedding of `process_repo(token, repo)` (src/cleanupdockerhub.py:163-195)
after the tag list has been fetched: `checked` is set to `len(tags)` up front
and the loop fills the other counters.  Returns the stats together with the
trace of `delete_tag` calls made. -/
def process_repo (cfg : Config) (now : Int) (deleteOk : String → Bool)
    (tags : List Tag) : RepoStats × List String :=
  let r := processLoop cfg now deleteOk 0 tags
  (⟨tags.length, r.1.1, r.1.2.1, r.1.2.2⟩, r.2)

/-- Embedding of the repository loop of `run_cleanup`
(src/cleanupdockerhub.py:221-225).  `repoTags repo` is the oracle for
`get_tags(token, repo)`: `.ok tags` when the listing succeeds and `.error e`
when fetching or processing that repository raises.  The loop has no
try/except, so the first raising repository aborts it; the returned list is
the trace of repositories actually attempted, paired with either the summed
totals or the propagated exception. -/
def runLoop (cfg : Config) (now : Int) (deleteOk : String → Bool)
    (repoTags : String → Except String (List Tag)) (totals : RepoStats) :
    List String → List String × Except String RepoStats
  | [] => ([], .ok totals)
  | repo :: rest =>
    match repoTags repo with
    | .error e => ([repo], .error e)
    | .ok tags =>
      let stats := (process_repo cfg now deleteOk tags).1
      let tail := runLoop cfg now deleteOk repoTags (totals.add stats) rest
      (repo :: tail.1, tail.2)

/-- Totals accumulation of `run_cleanup` over its target repository list,
starting from `{"checked": 0, "deleted": 0, "kept": 0, "errors": 0}`. -/
def run_cleanup (cfg : Config) (now : Int) (deleteOk : String → Bool)
    (repoTags : String → Except String (List Tag)) (repos : List String) :
    List String × Except String RepoStats :=
  runLoop cfg now deleteOk repoTags ⟨0, 0, 0, 0⟩ repos

/-- The possible outcomes of the single `requests.post` inside `get_token`:
a response whose `raise_for_status()` passes and whose body carries the token,
a response with an HTTP error status (4xx/5xx, on which `raise_for_status()`
raises `HTTPError`), or a network-level connection error raised by the post
itself. -/
inductive LoginResp where
  | success (token : String)
  | httpStatus (code : Nat)
  | connError (msg : String)
  deriving Repr, DecidableEq

/-- Embedding of `get_token()` (src/cleanupdockerhub.py:61-69).  `resps` is
the sequence of outcomes successive login POSTs would produce (as the test
suite's mock prepares them).  The function body performs exactly one
`requests.post` followed by `raise_for_status()` — there is no retry loop, no
`_MAX_LOGIN_ATTEMPTS` constant and no `time.sleep` in the module — so only the
head of `resps` is consumed.  Returns
`(attempts made, sleeps performed, result)`. -/
def get_token (resps : List LoginResp) : Nat × Nat × Except String String :=
  match resps with
  | [] => (0, 0, .error "no response")
  | r :: _ =>
    match r with
    | .success tok => (1, 0, .ok tok)
    | .httpStatus code => (1, 0, .error ("HTTPError " ++ toString code))
    | .connError msg => (1, 0, .error ("ConnectionError " ++ msg))

/-- One page of a paginated Docker Hub listing: `data.get("results", [])` and
`data.get("next")` (`none` models an absent or JSON-null cursor). -/
structure Page (α : Type) where
  results : List α
  next : Option String

/-- Embedding of `paginate(url, token)` (src/cleanupdockerhub.py:72-82).
`api u` is the oracle for one successful GET of page `u`.  The Python `while
url:` loop stops when the cursor is absent, `None`, or the empty string (all
falsy); `fuel` bounds the recursion, standing for the unbounded loop. -/
def paginate {α : Type} (api : String → Page α) :
    Nat → Option String → List α
  | 0, _ => []
  | fuel + 1, url =>
    match url with
    | none => []
    | some u =>
      if u = "" then []
      else
        let data := api u
        data.results ++ paginate api fuel data.next

/-- Stated from the spec, for comparison with `paginate`: the sequence of
per-page result lists met while following the "next" cursor from `url` until
it is exhausted, in page order. -/
def pageResults {α : Type} (api : String → Page α) :
    Nat → Option String → List (List α)
  | 0, _ => []
  | fuel + 1, url =>
    match url with
    | none => []
    | some u =>
      if u = "" then []
      else (api u).results :: pageResults api fuel (api u).next

/-- Predicate: the next-cursor chain starting at `url` reaches an exhausted
cursor (absent, null, or empty) within `fuel` follow-ups. -/
def exhausts {α : Type} (api : String → Page α) :
    Nat → Option String → Bool
  | 0, url =>
    match url with
    | none => true
    | some u => u = ""
  | fuel + 1, url =>
    match url with
    | none => true
    | some u => u = "" || exhausts api fuel (api u).next

/-- Embedding of `safe_run_cleanup()` (src/cleanupdockerhub.py:246-252):
given the outcome of `run_cleanup()`, every exception is caught and logged.
The function is total — it always returns (with the logged error message, if
any) and never re-raises. -/
def safe_run_cleanup (run : Except String Unit) : Option String :=
  match run with
  | .ok _ => none
  | .error exc => some ("Cleanup run failed: " ++ exc)

/-- The observable outcome of `main()` for the purposes of the entry-point
claims. -/
inductive MainOutcome where
  | exitFailure
  | finished
  | raised (exc : String)
  | scheduled (initialRunLogged : Option String)
  deriving Repr, DecidableEq

/-- Embedding of `main()` (src/cleanupdockerhub.py:255-284).  `hasCreds`
models `DOCKERHUB_USERNAME and DOCKERHUB_TOKEN` both being set; `cron` is
`CRON_SCHEDULE`; `cronValid` is the oracle for
`CronTrigger.from_crontab(CRON_SCHEDULE)` succeeding; `run` is the outcome of
`run_cleanup()`.  In one-shot mode (`cron = ""`), `run_cleanup()` is called
directly and an exception propagates (`raised`, a non-zero process exit).  In
cron mode an invalid expression exits with failure before anything is
scheduled; otherwise the initial immediate run goes through
`safe_run_cleanup` and the scheduler is entered with `safe_run_cleanup` as
the job. -/
def main (hasCreds : Bool) (cron : String) (cronValid : Bool)
    (run : Except String Unit) : MainOutcome :=
  if !hasCreds then .exitFailure
  else if cron = "" then
    match run with
    | .ok _ => .finished
    | .error exc => .raised exc
  else if !cronValid then .exitFailure
  else .scheduled (safe_run_cleanup run)

/-- ASCII case mapping of Python's `str.lower()` on one character
(environment values are ASCII; non-letters are unchanged). -/
def charLower (c : Char) : Char :=
  if 'A' ≤ c ∧ c ≤ 'Z' then Char.ofNat (c.toNat + 32) else c

/-- Embedding of Python's `str.lower()` over the string's characters. -/
def strLower (s : String) : String :=
  ⟨s.data.map charLower⟩

/-- Embedding of the `DRY_RUN` configuration line
(src/cleanupdockerhub.py:32):
`os.getenv("DRY_RUN", "true").lower() in ("true", "1", "yes")`.
`env` is the raw environment value, `none` when the variable is unset. -/
def parseDryRun (env : Option String) : Bool :=
  strLower (env.getD "true") ∈ ["true", "1", "yes"]

/-! Spec-side characterisations of the processing loop, stated from the
spec's words ("tags that satisfy the delete predicate", "eligible tags in
rank order"), for comparison with the embedded loop. -/

/-- Number of tags, from position `rank` on, that satisfy the delete
predicate (`evaluate_tag` returns `should_delete = True`). -/
def countEligible (cfg : Config) (now : Int) : Nat → List Tag → Nat
  | _, [] => 0
  | rank, tag :: rest =>
    let c := countEligible cfg now (rank + 1) rest
    if (evaluate_tag cfg now tag rank).1 then c + 1 else c

/-- Number of tags, from position `rank` on, that do not satisfy the delete
predicate. -/
def countKept (cfg : Config) (now : Int) : Nat → List Tag → Nat
  | _, [] => 0
  | rank, tag :: rest =>
    let c := countKept cfg now (rank + 1) rest
    if (evaluate_tag cfg now tag rank).1 then c else c + 1

/-- Names of the tags, from position `rank` on, that satisfy the delete
predicate, in rank order — the deletions live mode would attempt. -/
def eligibleNames (cfg : Config) (now : Int) : Nat → List Tag → List String
  | _, [] => []
  | rank, tag :: rest =>
    let ns := eligibleNames cfg now (rank + 1) rest
    if (evaluate_tag cfg now tag rank).1 then tag.name :: ns else ns

/-! Concrete inputs used by the witness and counterexample theorems.  The
fixture mirrors the spec's worked example: `keep_last_n = 3`,
`min_age_days = 7`, `exclude_tags = ["latest"]`, five tags at ages 1, 10,
15, 3 and 40 days. -/

/-- Worked-example configuration in dry-run mode. -/
def exCfgDry : Config := ⟨3, 7, ["latest"], true⟩

/-- Worked-example configuration in live mode. -/
def exCfgLive : Config := ⟨3, 7, ["latest"], false⟩

/-- A fixed "now": 1000 days after the epoch, in seconds. -/
def exNow : Int := 1000 * 86400

/-- A tag whose age at `exNow` is `age` whole days. -/
def tagAged (name : String) (age : Int) : Tag :=
  ⟨name, some ((1000 - age) * 86400)⟩

/-- The worked example's five tags, ranked 0..4, ages 1, 10, 15, 3, 40. -/
def exTags : List Tag :=
  [tagAged "v5" 1, tagAged "v4" 10, tagAged "v3" 15, tagAged "v2" 3,
   tagAged "v1" 40]

/-- A delete oracle under which every DELETE request returns HTTP 204. -/
def allOk : String → Bool := fun _ => true

/-- Tag-list oracle for the run-level theorems: repository "alpha" raises
while its tags are being fetched, every other repository has the worked
example's tags. -/
def exRepoTags : String → Except String (List Tag) := fun r =>
  if r = "alpha" then .error "boom" else .ok exTags

/-- Tag-list oracle under which every repository listing succeeds. -/
def okRepoTags : String → Except String (List Tag) := fun _ => .ok exTags

/-- A two-page paginated listing: page "p1" holds ["a", "b"] and points to
"p2", page "p2" holds ["c"] and has a null cursor; any other URL yields an
empty terminal page. -/
def exApi : String → Page String := fun u =>
  if u = "p1" then ⟨["a", "b"], some "p2"⟩
  else if u = "p2" then ⟨["c"], none⟩
  else ⟨[], none⟩

/-! ## Theorems -/

/-- C2: for every tag with a name not in `exclude_tags` and a present
timestamp, and for every rank, `evaluate_tag` returns delete if and only if
`rank ≥ keep_last_n` and `age_days ≥ min_age_days`, both comparisons
inclusive. -/
theorem evaluate_tag_delete_iff (cfg : Config) (now : Int) (tag : Tag)
    (t : Int) (rank : Nat) (hname : tag.name ∉ cfg.excludeTags)
    (hts : tag.lastUpdated = some t) :
    (evaluate_tag cfg now tag rank).1 = true ↔
      ((rank : Int) ≥ cfg.keepLastN ∧ ageDays now t ≥ cfg.minAgeDays) := by
  rw [evaluate_tag]
  simp only [hts, if_neg hname]
  by_cases hb : (rank : Int) ≥ cfg.keepLastN <;>
    by_cases ha : ageDays now t ≥ cfg.minAgeDays <;>
      simp [hb, ha]

/-- Witness for C2 at the worked example: the rank-4 tag of age 40 days is
outside the keep-3 window and at least 7 days old, and `evaluate_tag`
deletes it. -/
theorem evaluate_tag_delete_iff_witness :
    (evaluate_tag exCfgDry exNow (tagAged "v1" 40) 4).1 = true ↔
      ((4 : Int) ≥ exCfgDry.keepLastN ∧
        ageDays exNow ((1000 - 40) * 86400) ≥ exCfgDry.minAgeDays) :=
  evaluate_tag_delete_iff exCfgDry exNow (tagAged "v1" 40) ((1000 - 40) * 86400)
    4 (by decide) rfl

/-- C4: `evaluate_tag` never deletes an excluded tag (the exclusion check
comes before all others, so the excluded result is returned at any rank and
whatever the timestamp), and never deletes a tag whose timestamp is absent
or empty. -/
theorem evaluate_tag_safety (cfg : Config) (now : Int) (tag : Tag)
    (rank : Nat) :
    (tag.name ∈ cfg.excludeTags →
      evaluate_tag cfg now tag rank =
        (false, "excluded tag '" ++ tag.name ++ "'")) ∧
    (tag.lastUpdated = none → (evaluate_tag cfg now tag rank).1 = false) := by
  constructor
  · intro hmem
    rw [evaluate_tag]
    simp [hmem]
  · intro hnone
    rw [evaluate_tag]
    by_cases hmem : tag.name ∈ cfg.excludeTags <;> simp [hmem, hnone]

/-- Witness for C4: at rank 9999, ten-year-old "latest" is kept with the
exclusion reason, and a tag with no timestamp is kept. -/
theorem evaluate_tag_safety_witness :
    evaluate_tag exCfgDry exNow (tagAged "latest" 3650) 9999 =
      (false, "excluded tag 'latest'") ∧
    (evaluate_tag exCfgDry exNow ⟨"v9", none⟩ 9999).1 = false :=
  ⟨(evaluate_tag_safety exCfgDry exNow (tagAged "latest" 3650) 9999).1
      (by decide),
    (evaluate_tag_safety exCfgDry exNow ⟨"v9", none⟩ 9999).2 rfl⟩

/-- C10: the dry-run flag is true exactly when the `DRY_RUN` environment
value, lowercased, is "true", "1" or "yes"; an unset variable defaults to
true; any other value — including "on" and "TRUE " with a trailing space —
yields false and therefore enables live deletions. -/
theorem parseDryRun_spec :
    parseDryRun none = true ∧
    (∀ s : String, parseDryRun (some s) = true ↔
      (strLower s = "true" ∨ strLower s = "1" ∨ strLower s = "yes")) ∧
    parseDryRun (some "on") = false ∧
    parseDryRun (some "TRUE ") = false := by
  refine ⟨by decide, ?_, by decide, by decide⟩
  intro s
  simp [parseDryRun]

/-- The retention decision does not read the `dry_run` flag: changing it
leaves `evaluate_tag` unchanged. -/
theorem evaluate_tag_dryRun_irrel (cfg : Config) (b : Bool) (now : Int)
    (tag : Tag) (rank : Nat) :
    evaluate_tag ⟨cfg.keepLastN, cfg.minAgeDays, cfg.excludeTags, b⟩ now tag
      rank = evaluate_tag cfg now tag rank := rfl

/-- Neither does the eligible-name listing. -/
theorem eligibleNames_dryRun_irrel (cfg : Config) (b : Bool) (now : Int) :
    ∀ (tags : List Tag) (rank : Nat),
      eligibleNames ⟨cfg.keepLastN, cfg.minAgeDays, cfg.excludeTags, b⟩ now
        rank tags = eligibleNames cfg now rank tags
  | [], _ => rfl
  | tag :: rest, rank => by
    rw [eligibleNames, eligibleNames,
      eligibleNames_dryRun_irrel cfg b now rest (rank + 1),
      evaluate_tag_dryRun_irrel]

/-- There are as many eligible names as eligible tags. -/
theorem eligibleNames_length (cfg : Config) (now : Int) :
    ∀ (tags : List Tag) (rank : Nat),
      (eligibleNames cfg now rank tags).length =
        countEligible cfg now rank tags
  | [], _ => rfl
  | tag :: rest, rank => by
    rw [eligibleNames, countEligible]
    by_cases hd : (evaluate_tag cfg now tag rank).1 = true <;>
      simp [hd, eligibleNames_length cfg now rest (rank + 1)]

/-- Closed form of the processing loop in dry-run mode: no delete calls,
every eligible tag counted as deleted, every other tag kept, no errors. -/
theorem processLoop_dry_eq (cfg : Config) (now : Int)
    (deleteOk : String → Bool) (h : cfg.dryRun = true) :
    ∀ (tags : List Tag) (rank : Nat),
      processLoop cfg now deleteOk rank tags =
        ((countEligible cfg now rank tags, countKept cfg now rank tags, 0),
          [])
  | [], _ => rfl
  | tag :: rest, rank => by
    rw [processLoop, processLoop_dry_eq cfg now deleteOk h rest (rank + 1),
      countEligible, countKept]
    by_cases hd : (evaluate_tag cfg now tag rank).1 = true <;> simp [hd, h]

/-- Closed form of the processing loop in live mode: one delete call per
eligible tag in rank order, `deleted` counts the successful calls, `errors`
the failed ones, `kept` the ineligible tags. -/
theorem processLoop_live_eq (cfg : Config) (now : Int)
    (deleteOk : String → Bool) (h : cfg.dryRun = false) :
    ∀ (tags : List Tag) (rank : Nat),
      processLoop cfg now deleteOk rank tags =
        (((eligibleNames cfg now rank tags).countP (fun n => deleteOk n),
          countKept cfg now rank tags,
          (eligibleNames cfg now rank tags).countP (fun n => !deleteOk n)),
         eligibleNames cfg now rank tags)
  | [], _ => rfl
  | tag :: rest, rank => by
    rw [processLoop, processLoop_live_eq cfg now deleteOk h rest (rank + 1),
      eligibleNames, countKept]
    by_cases hd : (evaluate_tag cfg now tag rank).1 = true
    · by_cases hk : deleteOk tag.name = true <;>
        simp [hd, hk, h, List.countP_cons]
    · simp [hd]

/-- Every tag the loop sees lands in exactly one of the `deleted`, `kept`,
`errors` buckets. -/
theorem processLoop_partition (cfg : Config) (now : Int)
    (deleteOk : String → Bool) :
    ∀ (tags : List Tag) (rank : Nat),
      (processLoop cfg now deleteOk rank tags).1.1 +
        (processLoop cfg now deleteOk rank tags).1.2.1 +
        (processLoop cfg now deleteOk rank tags).1.2.2 = tags.length
  | [], _ => rfl
  | tag :: rest, rank => by
    have ih := processLoop_partition cfg now deleteOk rest (rank + 1)
    rw [processLoop]
    by_cases hd : (evaluate_tag cfg now tag rank).1 = true <;>
      by_cases hdry : cfg.dryRun = true <;>
        by_cases hk : deleteOk tag.name = true <;>
          simp [hd, hdry, hk] <;> omega

/-- C5: in dry-run mode `process_repo` makes no `delete_tag` call, its
`deleted` counter equals the number of tags satisfying the delete predicate,
and that count equals the number of delete calls live mode would make on the
same tags — the preview matches what live mode would attempt. -/
theorem process_repo_dry_run (cfg : Config) (now : Int)
    (deleteOk : String → Bool) (tags : List Tag) (h : cfg.dryRun = true) :
    (process_repo cfg now deleteOk tags).2 = [] ∧
    (process_repo cfg now deleteOk tags).1.deleted =
      countEligible cfg now 0 tags ∧
    (process_repo cfg now deleteOk tags).1.deleted =
      ((process_repo ⟨cfg.keepLastN, cfg.minAgeDays, cfg.excludeTags, false⟩
          now deleteOk tags).2).length := by
  have hdry := processLoop_dry_eq cfg now deleteOk h tags 0
  have hlive := processLoop_live_eq
    ⟨cfg.keepLastN, cfg.minAgeDays, cfg.excludeTags, false⟩ now deleteOk rfl
    tags 0
  refine ⟨?_, ?_, ?_⟩ <;>
    simp [process_repo, hdry, hlive, eligibleNames_dryRun_irrel,
      eligibleNames_length]

/-- Witness for C5 at the worked example: one of the five tags is eligible;
the dry run records no delete call and counts it. -/
theorem process_repo_dry_run_witness :
    (process_repo exCfgDry exNow allOk exTags).2 = [] ∧
    (process_repo exCfgDry exNow allOk exTags).1.deleted =
      countEligible exCfgDry exNow 0 exTags ∧
    (process_repo exCfgDry exNow allOk exTags).1.deleted =
      ((process_repo ⟨exCfgDry.keepLastN, exCfgDry.minAgeDays,
          exCfgDry.excludeTags, false⟩ exNow allOk exTags).2).length :=
  process_repo_dry_run exCfgDry exNow allOk exTags rfl

/-- C6: in live mode `process_repo` calls `delete_tag` exactly once per
eligible tag, in rank order; `deleted` counts exactly the calls confirmed
successful, `errors` exactly the failed ones (no other counter moves on a
failure), `kept` the ineligible tags, and processing always reaches the end
of the tag list (`checked` equals the number of tags). -/
theorem process_repo_live (cfg : Config) (now : Int)
    (deleteOk : String → Bool) (tags : List Tag) (h : cfg.dryRun = false) :
    (process_repo cfg now deleteOk tags).2 = eligibleNames cfg now 0 tags ∧
    (process_repo cfg now deleteOk tags).1.deleted =
      (eligibleNames cfg now 0 tags).countP (fun n => deleteOk n) ∧
    (process_repo cfg now deleteOk tags).1.errors =
      (eligibleNames cfg now 0 tags).countP (fun n => !deleteOk n) ∧
    (process_repo cfg now deleteOk tags).1.kept =
      countKept cfg now 0 tags ∧
    (process_repo cfg now deleteOk tags).1.checked = tags.length := by
  have hlive := processLoop_live_eq cfg now deleteOk h tags 0
  exact ⟨by simp [process_repo, hlive], by simp [process_repo, hlive],
    by simp [process_repo, hlive], by simp [process_repo, hlive],
    by simp [process_repo]⟩

/-- Witness for C6 at the worked example in live mode. -/
theorem process_repo_live_witness :
    (process_repo exCfgLive exNow allOk exTags).2 =
      eligibleNames exCfgLive exNow 0 exTags ∧
    (process_repo exCfgLive exNow allOk exTags).1.deleted =
      (eligibleNames exCfgLive exNow 0 exTags).countP (fun n => allOk n) ∧
    (process_repo exCfgLive exNow allOk exTags).1.errors =
      (eligibleNames exCfgLive exNow 0 exTags).countP (fun n => !allOk n) ∧
    (process_repo exCfgLive exNow allOk exTags).1.kept =
      countKept exCfgLive exNow 0 exTags ∧
    (process_repo exCfgLive exNow allOk exTags).1.checked = exTags.length :=
  process_repo_live exCfgLive exNow allOk exTags rfl

/-- The repository loop of `run_cleanup` preserves the partition invariant
of the totals it accumulates. -/
theorem runLoop_partition (cfg : Config) (now : Int)
    (deleteOk : String → Bool)
    (repoTags : String → Except String (List Tag)) :
    ∀ (repos : List String) (totals : RepoStats) (att : List String)
      (final : RepoStats),
      totals.checked = totals.deleted + totals.kept + totals.errors →
      runLoop cfg now deleteOk repoTags totals repos = (att, .ok final) →
      final.checked = final.deleted + final.kept + final.errors
  | [], totals, att, final, hinv, heq => by
    rw [runLoop] at heq
    obtain ⟨-, h2⟩ := Prod.mk.injEq .. ▸ heq
    cases h2
    exact hinv
  | repo :: rest, totals, att, final, hinv, heq => by
    rw [runLoop] at heq
    cases hrt : repoTags repo with
    | error e => rw [hrt] at heq; simp at heq
    | ok tags =>
      rw [hrt] at heq
      simp only at heq
      obtain ⟨-, h2⟩ := Prod.mk.injEq .. ▸ heq
      refine runLoop_partition cfg now deleteOk repoTags rest
        (totals.add (process_repo cfg now deleteOk tags).1)
        (runLoop cfg now deleteOk repoTags
          (totals.add (process_repo cfg now deleteOk tags).1) rest).1
        final ?_ ?_
      · have hp := processLoop_partition cfg now deleteOk tags 0
        simp only [RepoStats.add, process_repo]
        simp only [process_repo] at hp ⊢
        omega
      · exact Prod.ext rfl h2

/-- C9: `process_repo` always returns stats with
`checked = deleted + kept + errors`, and `run_cleanup`'s component-wise
summation preserves the invariant in the run totals. -/
theorem stats_partition (cfg : Config) (now : Int)
    (deleteOk : String → Bool)
    (repoTags : String → Except String (List Tag)) :
    (∀ tags : List Tag,
      (process_repo cfg now deleteOk tags).1.checked =
        (process_repo cfg now deleteOk tags).1.deleted +
        (process_repo cfg now deleteOk tags).1.kept +
        (process_repo cfg now deleteOk tags).1.errors) ∧
    (∀ (repos att : List String) (totals : RepoStats),
      run_cleanup cfg now deleteOk repoTags repos = (att, .ok totals) →
      totals.checked = totals.deleted + totals.kept + totals.errors) := by
  constructor
  · intro tags
    have hp := processLoop_partition cfg now deleteOk tags 0
    simp only [process_repo] at hp ⊢
    omega
  · intro repos att totals heq
    exact runLoop_partition cfg now deleteOk repoTags repos ⟨0, 0, 0, 0⟩ att
      totals rfl heq

/-- Witness for C9: over two repositories with the worked example's tags the
totals are checked 10 = deleted 2 + kept 8 + errors 0. -/
theorem stats_partition_witness :
    (process_repo exCfgDry exNow allOk exTags).1.checked =
      (process_repo exCfgDry exNow allOk exTags).1.deleted +
      (process_repo exCfgDry exNow allOk exTags).1.kept +
      (process_repo exCfgDry exNow allOk exTags).1.errors ∧
    (⟨10, 2, 8, 0⟩ : RepoStats).checked =
      (⟨10, 2, 8, 0⟩ : RepoStats).deleted +
      (⟨10, 2, 8, 0⟩ : RepoStats).kept +
      (⟨10, 2, 8, 0⟩ : RepoStats).errors :=
  ⟨(stats_partition exCfgDry exNow allOk okRepoTags).1 exTags,
    (stats_partition exCfgDry exNow allOk okRepoTags).2 ["r1", "r2"]
      ["r1", "r2"] ⟨10, 2, 8, 0⟩ (by rfl)⟩

/-- C3 counterexample: repository "alpha" raises while its tag list is
fetched, and a run over ["alpha", "beta"] attempts only "alpha" — the
failure prevents "beta" from being attempted and the run errors out, against
the claim that remaining repositories are still attempted. -/
theorem run_cleanup_abort_counterexample :
    (run_cleanup exCfgDry exNow allOk exRepoTags ["alpha", "beta"]).1 =
      ["alpha"] ∧
    "beta" ∉
      (run_cleanup exCfgDry exNow allOk exRepoTags ["alpha", "beta"]).1 ∧
    (run_cleanup exCfgDry exNow allOk exRepoTags ["alpha", "beta"]).2 =
      .error "boom" :=
  ⟨rfl, by decide, rfl⟩

/-- Helper: the repository loop runs every repository of an all-succeeding
prefix, then stops at the first repository whose tag fetch raises,
propagating its exception. -/
theorem runLoop_stops_at_error (cfg : Config) (now : Int)
    (deleteOk : String → Bool)
    (repoTags : String → Except String (List Tag)) :
    ∀ (pre : List String) (repo : String) (rest : List String) (e : String)
      (totals : RepoStats),
      (∀ r ∈ pre, ∃ tags, repoTags r = .ok tags) →
      repoTags repo = .error e →
      runLoop cfg now deleteOk repoTags totals (pre ++ repo :: rest) =
        (pre ++ [repo], .error e)
  | [], repo, rest, e, totals, _, herr => by
    simp only [List.nil_append, runLoop, herr]
  | p :: pre, repo, rest, e, totals, hpre, herr => by
    obtain ⟨tags, htags⟩ := hpre p (List.mem_cons_self p pre)
    rw [List.cons_append]
    simp only [runLoop, htags]
    rw [runLoop_stops_at_error cfg now deleteOk repoTags pre repo rest e _
      (fun r hr => hpre r (List.mem_cons_of_mem p hr)) herr]
    simp

/-- C3 (amended): a run over zero repositories completes with all-zero
totals, but repositories are not processed independently — as soon as one
repository's tag fetch raises, the exception propagates out of the loop:
the failing repository is the last one attempted and the remaining
repositories are not attempted. -/
theorem run_cleanup_zero_and_abort (cfg : Config) (now : Int)
    (deleteOk : String → Bool)
    (repoTags : String → Except String (List Tag)) :
    run_cleanup cfg now deleteOk repoTags [] = ([], .ok ⟨0, 0, 0, 0⟩) ∧
    (∀ (pre : List String) (repo : String) (rest : List String) (e : String),
      (∀ r ∈ pre, ∃ tags, repoTags r = .ok tags) →
      repoTags repo = .error e →
      run_cleanup cfg now deleteOk repoTags (pre ++ repo :: rest) =
        (pre ++ [repo], .error e)) :=
  ⟨rfl, fun pre repo rest e hpre herr =>
    runLoop_stops_at_error cfg now deleteOk repoTags pre repo rest e ⟨0, 0, 0, 0⟩
      hpre herr⟩

/-- Witness for the amended C3: the empty run yields zero totals, and with
"r1" succeeding and "alpha" raising, the run over ["r1", "alpha", "beta"]
attempts ["r1", "alpha"] and propagates the exception. -/
theorem run_cleanup_zero_and_abort_witness :
    run_cleanup exCfgDry exNow allOk exRepoTags [] = ([], .ok ⟨0, 0, 0, 0⟩) ∧
    run_cleanup exCfgDry exNow allOk exRepoTags ["r1", "alpha", "beta"] =
      (["r1", "alpha"], .error "boom") :=
  ⟨(run_cleanup_zero_and_abort exCfgDry exNow allOk exRepoTags).1,
    (run_cleanup_zero_and_abort exCfgDry exNow allOk exRepoTags).2 ["r1"]
      "alpha" ["beta"] "boom"
      (by
        intro r hr
        simp only [List.mem_singleton] at hr
        subst hr
        exact ⟨exTags, rfl⟩)
      rfl⟩

/-- C7: the entry point's failure policies are asymmetric.  In one-shot mode
(empty cron schedule) an exception from the run propagates out of `main`;
in cron mode with a valid schedule the outcome is `scheduled` whatever the
run's outcome (the initial immediate run goes through `safe_run_cleanup`,
which catches and logs every exception, and `safe_run_cleanup` is also the
scheduled job); an invalid cron expression exits with failure before
scheduled mode is entered. -/
theorem main_failure_policy :
    (∀ (exc : String) (cronValid : Bool),
      main true "" cronValid (.error exc) = .raised exc) ∧
    (∀ (cron : String) (run : Except String Unit), cron ≠ "" →
      main true cron true run = .scheduled (safe_run_cleanup run)) ∧
    (∀ exc : String, safe_run_cleanup (.error exc) =
      some ("Cleanup run failed: " ++ exc)) ∧
    (∀ (cron : String) (run : Except String Unit), cron ≠ "" →
      main true cron false run = .exitFailure) := by
  refine ⟨fun exc cronValid => rfl, fun cron run h => ?_, fun exc => rfl,
    fun cron run h => ?_⟩ <;> simp [main, h]

/-- Witness for C7 at concrete inputs: a failing one-shot run propagates,
the same failing run under the schedule "0 3 * * 0" leaves the process
scheduled with the error logged, and an invalid schedule exits. -/
theorem main_failure_policy_witness :
    main true "" true (.error "auth failed") = .raised "auth failed" ∧
    main true "0 3 * * 0" true (.error "auth failed") =
      .scheduled (safe_run_cleanup (.error "auth failed")) ∧
    safe_run_cleanup (.error "auth failed") =
      some ("Cleanup run failed: " ++ "auth failed") ∧
    main true "not a cron" false (.ok ()) = .exitFailure :=
  ⟨main_failure_policy.1 "auth failed" true,
    main_failure_policy.2.1 "0 3 * * 0" (.error "auth failed") (by decide),
    main_failure_policy.2.2.1 "auth failed",
    main_failure_policy.2.2.2 "not a cron" (.ok ()) (by decide)⟩

/-- Helper: an exhausted (absent) cursor yields no results at any fuel. -/
theorem paginate_none (α : Type) (api : String → Page α) (m : Nat) :
    paginate api m none = [] := by
  cases m <;> rfl

/-- Helper: an exhausted (empty-string) cursor yields no results at any
fuel. -/
theorem paginate_empty_cursor (α : Type) (api : String → Page α) (m : Nat) :
    paginate api m (some "") = [] := by
  cases m <;> simp [paginate]

/-- Helper: `paginate` returns exactly the concatenation of the per-page
result lists met along the cursor chain, in page order. -/
theorem paginate_eq_join (α : Type) (api : String → Page α) :
    ∀ (fuel : Nat) (url : Option String),
      paginate api fuel url = (pageResults api fuel url).flatten
  | 0, _ => rfl
  | _ + 1, none => rfl
  | fuel + 1, some u => by
    rw [paginate, pageResults]
    by_cases h : u = ""
    · simp [h]
    · simp [h, paginate_eq_join α api fuel (api u).next]

/-- Helper: once the cursor chain is exhausted within `fuel` pages, giving
the loop more fuel changes nothing — the result is the complete set of
pages, never a partial one. -/
theorem paginate_fuel_stable (α : Type) (api : String → Page α) :
    ∀ (fuel : Nat) (url : Option String), exhausts api fuel url = true →
      ∀ extra : Nat, paginate api (fuel + extra) url = paginate api fuel url
  | 0, none, _, extra => by
    rw [paginate_none, paginate_none]
  | 0, some u, h, extra => by
    have hu : u = "" := by simpa [exhausts] using h
    subst hu
    rw [paginate_empty_cursor, paginate_empty_cursor]
  | fuel + 1, none, _, extra => by
    rw [paginate_none, paginate_none]
  | fuel + 1, some u, h, extra => by
    by_cases hu : u = ""
    · subst hu
      rw [paginate_empty_cursor, paginate_empty_cursor]
    · have hnext : exhausts api fuel (api u).next = true := by
        simpa [exhausts, hu] using h
      have harith : fuel + 1 + extra = fuel + extra + 1 := by omega
      rw [harith, paginate, paginate, if_neg hu, if_neg hu]
      simp only [paginate_fuel_stable α api fuel (api u).next hnext extra]

/-- C8: `paginate` follows the "next" cursor until it is exhausted and
returns the concatenation of every page's results in page order; once the
chain is exhausted within the given fuel, no extra fuel changes the result,
so the caller never observes a partial set of pages. -/
theorem paginate_follows_next (α : Type) (api : String → Page α) (fuel : Nat)
    (url : Option String) (h : exhausts api fuel url = true) :
    paginate api fuel url = (pageResults api fuel url).flatten ∧
    ∀ extra : Nat, paginate api (fuel + extra) url = paginate api fuel url :=
  ⟨paginate_eq_join α api fuel url, paginate_fuel_stable α api fuel url h⟩

/-- Witness for C8 on the two-page listing: the chain from "p1" exhausts
within fuel 2, the result is the join of both pages, and three units of
extra fuel change nothing. -/
theorem paginate_follows_next_witness :
    paginate exApi 2 (some "p1") = (pageResults exApi 2 (some "p1")).flatten ∧
    paginate exApi (2 + 3) (some "p1") = paginate exApi 2 (some "p1") :=
  ⟨(paginate_follows_next String exApi 2 (some "p1") (by decide)).1,
    (paginate_follows_next String exApi 2 (some "p1") (by decide)).2 3⟩

/-- C1 (divergence witness): `get_token` has no retry loop — on a login
sequence whose first two attempts would fail with HTTP 503 and whose third
would succeed, it makes exactly 1 attempt, sleeps 0 times and raises the
first 503, instead of the 3 attempts, 2 sleeps and returned token the
retry contract requires. -/
theorem get_token_no_retry :
    get_token [.httpStatus 503, .httpStatus 503, .success "retried"] =
      (1, 0, .error "HTTPError 503") := rfl

end CleanupDockerhub
